import Mathlib

/-!
Verification development for the stander_monlothic_rust repository.

Shallow embedding of the two core subsystems:
* the bounded cache / reclamation manager (src/common/memory.rs), and
* the photo (asset) lifecycle service (src/services/photo_service.rs).

Modelling conventions:
* `Instant` timestamps are natural numbers (seconds); `Instant - Duration`
  becomes truncated natural subtraction.
* `Vec<u8>` payloads are `List Nat` (byte values).
* `HashMap<String, (Vec<u8>, Instant)>` is an association list with
  insert-replaces-existing-key semantics.
* Fallible external stores (MongoDB, PostgreSQL) are modelled by an explicit
  store state plus an environment of success/failure flags, one per store
  call site; every service operation returns the post-state together with
  an `Except` mirroring `anyhow::Result`.
-/

namespace Stander

/-! ## Cache / reclamation manager — model of src/common/memory.rs -/

/-- Model of `MemoryStats` (memory.rs lines 10-16). `Instant` is a `Nat`. -/
structure MemoryStats where
  allocated_bytes : Nat
  peak_allocated_bytes : Nat
  gc_runs : Nat
  last_gc_time : Option Nat
deriving DecidableEq

/-- Model of `GcConfig` (memory.rs lines 19-25). -/
structure GcConfig where
  max_memory_mb : Nat
  gc_interval_seconds : Nat
  force_gc_threshold_mb : Nat
  enable_auto_gc : Bool
deriving DecidableEq

/-- A cache entry of `HashMap<String, (Vec<u8>, Instant)>`:
key, payload bytes, insertion instant. -/
abbrev CacheEntry := String × List Nat × Nat

/-- Model of `MemoryManager` state (memory.rs lines 39-44): the statistics
record and the cache map (association list, unique keys in reachable states). -/
structure MemoryManager where
  stats : MemoryStats
  cache : List CacheEntry
deriving DecidableEq

/-- Model of `MemoryManager::new` (memory.rs lines 47-58): zeroed stats, empty cache. -/
def MemoryManager.new : MemoryManager :=
  { stats := { allocated_bytes := 0, peak_allocated_bytes := 0,
               gc_runs := 0, last_gc_time := none }
    cache := [] }

/-- Model of `HashMap::insert`: replaces any existing entry for the key. -/
def cacheInsert (c : List CacheEntry) (key : String) (data : List Nat)
    (now : Nat) : List CacheEntry :=
  (key, data, now) :: c.filter (fun e => e.1 != key)

/-- Model of `HashMap::get` on the model. -/
def cacheLookup (c : List CacheEntry) (key : String) : Option (List Nat × Nat) :=
  (c.find? (fun e => e.1 == key)).map (fun e => e.2)

/-- Model of `MemoryManager::cache_data` (memory.rs lines 96-112): insert the entry,
then add the NEW payload size to `allocated_bytes` (the source does not
subtract a replaced payload's size), then raise the peak if exceeded. -/
def MemoryManager.cache_data (m : MemoryManager) (key : String)
    (data : List Nat) (now : Nat) : MemoryManager :=
  let data_size := data.length
  let cache := cacheInsert m.cache key data now
  let allocated := m.stats.allocated_bytes + data_size
  let peak := if allocated > m.stats.peak_allocated_bytes then allocated
              else m.stats.peak_allocated_bytes
  { cache := cache
    stats := { m.stats with allocated_bytes := allocated, peak_allocated_bytes := peak } }

/-- Model of `MemoryManager::get_cached_data` (memory.rs lines 113-116). -/
def MemoryManager.get_cached_data (m : MemoryManager) (key : String) :
    Option (List Nat) :=
  (cacheLookup m.cache key).map (fun p => p.1)

/-- Model of `MemoryManager::remove_cached_data` (memory.rs lines 117-126):
remove the entry if present and subtract its size (saturating). -/
def MemoryManager.remove_cached_data (m : MemoryManager) (key : String) :
    MemoryManager × Bool :=
  match cacheLookup m.cache key with
  | some (data, _) =>
      ({ cache := m.cache.filter (fun e => e.1 != key)
         stats := { m.stats with
                      allocated_bytes := m.stats.allocated_bytes - data.length } }, true)
  | none => (m, false)

/-- Model of `MemoryManager::get_stats` (memory.rs lines 127-129). -/
def MemoryManager.get_stats (m : MemoryManager) : MemoryStats := m.stats

/-- Model of `MemoryManager::clear_cache` (memory.rs lines 130-138): empty the map and
zero `allocated_bytes`; the other stats fields are untouched. -/
def MemoryManager.clear_cache (m : MemoryManager) : MemoryManager :=
  { cache := []
    stats := { m.stats with allocated_bytes := 0 } }

/-- Model of `MemoryManager::run_gc_internal` (memory.rs lines 139-174): remove every
entry whose timestamp precedes `now - 3600` seconds, subtract the freed
bytes (saturating), bump `gc_runs`, record `last_gc_time := now`. -/
def MemoryManager.run_gc_internal (m : MemoryManager) (now : Nat) : MemoryManager :=
  let expiry_threshold := now - 3600
  let removed := m.cache.filter (fun e => decide (e.2.2 < expiry_threshold))
  let freed_bytes := (removed.map (fun e => e.2.1.length)).sum
  { cache := m.cache.filter (fun e => !decide (e.2.2 < expiry_threshold))
    stats := { allocated_bytes := m.stats.allocated_bytes - freed_bytes
               peak_allocated_bytes := m.stats.peak_allocated_bytes
               gc_runs := m.stats.gc_runs + 1
               last_gc_time := some now } }

/-- Model of `MemoryManager::force_gc` (memory.rs lines 92-95): one reclamation pass,
unconditionally. -/
def MemoryManager.force_gc (m : MemoryManager) (now : Nat) : MemoryManager :=
  m.run_gc_internal now

/-- One wake of the background auto-GC task (memory.rs lines 72-89): run a
pass only when `allocated_bytes` exceeds `force_gc_threshold_mb` MiB. -/
def MemoryManager.auto_gc_tick (m : MemoryManager) (config : GcConfig)
    (now : Nat) : MemoryManager :=
  let threshold_bytes := config.force_gc_threshold_mb * 1024 * 1024
  if m.stats.allocated_bytes > threshold_bytes then m.run_gc_internal now else m

/-- Model of `get_memory_manager` (memory.rs lines 189-191): the `OnceCell` global is
modelled as an explicit `Option MemoryManager` argument. -/
def get_memory_manager (g : Option MemoryManager) : Option MemoryManager := g

/-- Model of `get_memory_stats` (memory.rs lines 199-205): `None` when no manager has
been configured, otherwise the configured instance's stats snapshot. -/
def get_memory_stats (g : Option MemoryManager) : Option MemoryStats :=
  match get_memory_manager g with
  | some manager => some manager.get_stats
  | none => none

/-- The cache operations a caller can perform, for stating invariants over
arbitrary operation sequences. -/
inductive CacheOp where
  | put (key : String) (data : List Nat) (now : Nat)
  | get (key : String)
  | remove (key : String)
  | clear
  | gc (now : Nat)

/-- Effect of one cache operation on the manager state. -/
def execOp (m : MemoryManager) : CacheOp → MemoryManager
  | .put key data now => m.cache_data key data now
  | .get _ => m
  | .remove key => (m.remove_cached_data key).1
  | .clear => m.clear_cache
  | .gc now => m.run_gc_internal now

/-- Effect of a sequence of cache operations. -/
def execOps (m : MemoryManager) (ops : List CacheOp) : MemoryManager :=
  ops.foldl execOp m

/-- Sum of the current entries' payload sizes. -/
def entriesBytes (m : MemoryManager) : Nat :=
  (m.cache.map (fun e => e.2.1.length)).sum

/-- An entry is expired at `now` when its age `now - insertedAt` exceeds one
hour (3600 seconds). -/
def gcExpired (now : Nat) (e : CacheEntry) : Bool := decide (3600 < now - e.2.2)

/-! ## Photo lifecycle service — model of src/services/photo_service.rs

MongoDB `ObjectId` values are store-assigned identifiers, modelled as `Nat`;
`ObjectId::to_hex` / `ObjectId::parse_str` become lower-case hexadecimal
rendering / parsing of that number. PostgreSQL `Uuid` primary keys are also
modelled as store-assigned `Nat`; user ids (opaque to the service) are
strings. -/

/-- One lower-case hexadecimal digit character (for values below 16). -/
def hexDigit (v : Nat) : Char :=
  if v < 10 then Char.ofNat (48 + v) else Char.ofNat (87 + v)

/-- Little-endian hexadecimal digits, with explicit recursion fuel (kept
structural so that the model evaluates by kernel reduction). -/
def toHexRevFuel : Nat → Nat → List Char
  | 0, _ => []
  | fuel + 1, n =>
    if n < 16 then [hexDigit n] else hexDigit (n % 16) :: toHexRevFuel fuel (n / 16)

/-- Little-endian hexadecimal digits of a number (least significant first);
`n + 1` steps of fuel always suffice. -/
def toHexRev (n : Nat) : List Char := toHexRevFuel (n + 1) n

/-- Model of `ObjectId::to_hex`: lower-case hexadecimal rendering. -/
def oidToHex (n : Nat) : String := ⟨(toHexRev n).reverse⟩

/-- Value of one hexadecimal digit character, if it is one. -/
def hexVal (c : Char) : Option Nat :=
  if 48 ≤ c.toNat ∧ c.toNat ≤ 57 then some (c.toNat - 48)
  else if 97 ≤ c.toNat ∧ c.toNat ≤ 102 then some (c.toNat - 87)
  else none

/-- Big-endian hexadecimal parse with accumulator. -/
def parseHexCore : Nat → List Char → Option Nat
  | acc, [] => some acc
  | acc, c :: cs =>
    match hexVal c with
    | some v => parseHexCore (acc * 16 + v) cs
    | none => none

/-- Model of `ObjectId::parse_str`: accepts a nonempty lower-case hexadecimal
identifier string, rejects anything else. -/
def oidParse (s : String) : Option Nat :=
  if s.data = [] then none else parseHexCore 0 s.data

/-- Model of `str::split(sep)` on a character list (Rust semantics: a leading or
trailing separator yields an empty segment). -/
def splitChar (sep : Char) : List Char → List (List Char)
  | [] => [[]]
  | c :: cs =>
    if c = sep then [] :: splitChar sep cs
    else
      match splitChar sep cs with
      | [] => [[c]]
      | g :: gs => (c :: g) :: gs

/-- Model of `MongoPhoto` (models/mongo_models.rs lines 8-21); the `_id` is
`none` until the store assigns one, timestamps are `Nat`. -/
structure MongoPhoto where
  id : Option Nat
  user_id : String
  photo_type : String
  file_name : String
  file_size : Int
  content_type : String
  photo_data : List Nat
  is_verified : Bool
  created_at : Nat
  updated_at : Nat
deriving DecidableEq

/-- Model of `MongoPhoto::new` (models/mongo_models.rs lines 24-45). -/
def MongoPhoto.new (user_id photo_type file_name : String) (file_size : Int)
    (content_type : String) (photo_data : List Nat) (now : Nat) : MongoPhoto :=
  { id := none, user_id := user_id, photo_type := photo_type,
    file_name := file_name, file_size := file_size, content_type := content_type,
    photo_data := photo_data, is_verified := false,
    created_at := now, updated_at := now }

/-- Model of `DbUserPhoto` (models/db_models.rs lines 63-71): the descriptor
row in the `user_photos` table. -/
structure DbUserPhoto where
  id : Nat
  user_id : String
  photo_type : String
  photo_url : String
  is_verified : Bool
  created_at : Nat
  updated_at : Nat
deriving DecidableEq

/-- Model of the API-facing `UserPhoto` (models/user.rs lines 22-30). -/
structure UserPhoto where
  id : Nat
  user_id : String
  photo_type : String
  photo_url : String
  is_verified : Bool
  created_at : Nat
  updated_at : Nat
deriving DecidableEq

/-- The fieldwise `DbUserPhoto → UserPhoto` mapping the service performs. -/
def dbToUserPhoto (p : DbUserPhoto) : UserPhoto :=
  { id := p.id, user_id := p.user_id, photo_type := p.photo_type,
    photo_url := p.photo_url, is_verified := p.is_verified,
    created_at := p.created_at, updated_at := p.updated_at }

/-- Combined state of the two external stores: the MongoDB `photos`
collection (keyed by store-assigned `ObjectId`) with its freshness counter,
and the PostgreSQL `user_photos` table with its generated-key counter. -/
structure StoreState where
  mongo_photos : List (Nat × MongoPhoto)
  next_oid : Nat
  pg_user_photos : List DbUserPhoto
  next_pg_id : Nat
deriving DecidableEq

/-- Success/failure flags for each external store call site, so that partial
failures (e.g. blob write succeeds, descriptor insert fails) are expressible. -/
structure Env where
  pg_conn_ok : Bool
  mongo_insert_ok : Bool
  pg_insert_ok : Bool
  mongo_find_ok : Bool
  mongo_delete_ok : Bool
  pg_delete_ok : Bool
deriving DecidableEq

/-- The environment in which every store call succeeds. -/
def envOk : Env :=
  { pg_conn_ok := true, mongo_insert_ok := true, pg_insert_ok := true,
    mongo_find_ok := true, mongo_delete_ok := true, pg_delete_ok := true }

/-- The error outcomes of the photo service, one per `anyhow` failure site
(the constructor name records the Rust context/message). -/
inductive SvcError where
  /-- Rust error "Invalid photo type: {t}" (photo_service.rs line 39) -/
  | invalidPhotoType (t : String)
  /-- Rust error "File size too large. Maximum 10MB allowed" (line 42) -/
  | fileTooLarge
  /-- Rust error "Unsupported file format: {ext}" (line 49) -/
  | unsupportedFormat (ext : String)
  /-- Rust error "Failed to store photo in MongoDB" (line 65) -/
  | mongoInsertFailed
  /-- Rust error "Failed to get database connection" -/
  | pgConnFailed
  /-- Rust error "Failed to store photo metadata in PostgreSQL" (line 73) -/
  | pgInsertFailed
  /-- Rust error "Invalid photo ID format" (lines 81, 195) -/
  | invalidPhotoIdFormat
  /-- Rust error "Failed to query MongoDB" (line 86) -/
  | mongoQueryFailed
  /-- Rust error "Photo not found" (line 87) -/
  | photoNotFound
  /-- Rust error "Photo not found or access denied" (line 116) -/
  | photoNotFoundOrAccessDenied
  /-- Rust error "Invalid photo URL format" (line 118) -/
  | invalidPhotoUrlFormat
  /-- Rust error "Failed to delete photo from MongoDB" (line 200): storage-layer error -/
  | mongoDeleteFailed
  /-- Rust error "Photo not found in MongoDB" (line 202): deleted_count == 0 -/
  | photoNotFoundInMongo
  /-- Rust error "Failed to delete photo metadata from PostgreSQL" (line 123) -/
  | pgDeleteFailed
deriving DecidableEq

/-- The validation errors (bad category / size / extension) among the
service's failure outcomes. -/
def SvcError.isValidation : SvcError → Bool
  | .invalidPhotoType _ => true
  | .fileTooLarge => true
  | .unsupportedFormat _ => true
  | _ => false

/-- ASCII lowercasing of `str::to_lowercase` (extensions are ASCII). -/
def strToLower (s : String) : String := ⟨s.data.map Char.toLower⟩

/-- The extension-to-content-type whitelist match (photo_service.rs
lines 44-50); `none` models the `_ => return Err(...)` arm. -/
def contentTypeFor (ext : String) : Option String :=
  if ext = "jpg" ∨ ext = "jpeg" then some "image/jpeg"
  else if ext = "png" then some "image/png"
  else if ext = "gif" then some "image/gif"
  else if ext = "webp" then some "image/webp"
  else none

/-- The display name `format!("{}_{}.{}", user_id, photo_type, file_extension)`
(photo_service.rs line 52). -/
def uploadFileName (user_id photo_type file_extension : String) : String :=
  user_id ++ "_" ++ photo_type ++ "." ++ file_extension

/-- Model of `PhotoService::store_photo_in_mongodb` (photo_service.rs lines 152-159):
insert the document, the store assigning a fresh `ObjectId`. -/
def store_photo_in_mongodb (env : Env) (st : StoreState) (photo : MongoPhoto) :
    StoreState × Except SvcError Nat :=
  if env.mongo_insert_ok then
    ({ st with
         mongo_photos := (st.next_oid, { photo with id := some st.next_oid }) ::
           st.mongo_photos
         next_oid := st.next_oid + 1 }, .ok st.next_oid)
  else (st, .error .mongoInsertFailed)

/-- Model of `PhotoService::store_photo_metadata_in_postgres` (photo_service.rs
lines 161-191): insert the descriptor row with a generated key,
`is_verified = false`, both timestamps `now`. -/
def store_photo_metadata_in_postgres (env : Env) (st : StoreState)
    (user_id photo_type photo_url : String) (now : Nat) :
    StoreState × Except SvcError UserPhoto :=
  if env.pg_conn_ok then
    if env.pg_insert_ok then
      let db_photo : DbUserPhoto :=
        { id := st.next_pg_id, user_id := user_id, photo_type := photo_type,
          photo_url := photo_url, is_verified := false,
          created_at := now, updated_at := now }
      ({ st with pg_user_photos := db_photo :: st.pg_user_photos
                 next_pg_id := st.next_pg_id + 1 },
       .ok (dbToUserPhoto db_photo))
    else (st, .error .pgInsertFailed)
  else (st, .error .pgConnFailed)

/-- Model of `PhotoService::upload_photo` (photo_service.rs lines 31-77): validate
category, size and extension; write the blob; build the locator; insert the
descriptor. On a failure after the blob write, the state keeps the blob
(the source performs no compensation). -/
def upload_photo (env : Env) (st : StoreState) (user_id photo_type : String)
    (photo_data : List Nat) (file_extension : String) (now : Nat) :
    StoreState × Except SvcError UserPhoto :=
  if ¬ (photo_type = "profile" ∨ photo_type = "emirates_id" ∨
        photo_type = "verification") then
    (st, .error (.invalidPhotoType photo_type))
  else if photo_data.length > 10 * 1024 * 1024 then
    (st, .error .fileTooLarge)
  else
    match contentTypeFor (strToLower file_extension) with
    | none => (st, .error (.unsupportedFormat file_extension))
    | some content_type =>
      let file_name := uploadFileName user_id photo_type file_extension
      let file_size : Int := photo_data.length
      let mongo_photo :=
        MongoPhoto.new user_id photo_type file_name file_size content_type
          photo_data now
      match store_photo_in_mongodb env st mongo_photo with
      | (st1, .error e) => (st1, .error e)
      | (st1, .ok photo_id) =>
        let photo_url := "/api/v1/photos/" ++ oidToHex photo_id
        match store_photo_metadata_in_postgres env st1 user_id photo_type
            photo_url now with
        | (st2, .error e) => (st2, .error e)
        | (st2, .ok user_photo) => (st2, .ok user_photo)

/-- Model of `PhotoService::get_photo_data` (photo_service.rs lines 79-88): parse the
identifier, `find_one` by `_id`. -/
def get_photo_data (env : Env) (st : StoreState) (photo_id : String) :
    Except SvcError MongoPhoto :=
  match oidParse photo_id with
  | none => .error .invalidPhotoIdFormat
  | some object_id =>
    if env.mongo_find_ok then
      match st.mongo_photos.find? (fun p => p.1 == object_id) with
      | some p => .ok p.2
      | none => .error .photoNotFound
    else .error .mongoQueryFailed

/-- Model of `PhotoService::extract_mongo_id_from_url` (photo_service.rs
lines 207-214): split on a slash; require at least 4 segments with the
second-to-last equal to "photos"; return the last segment. -/
def extract_mongo_id_from_url (photo_url : String) : Option String :=
  let parts : List String := (splitChar '/' photo_url.data).map (fun l => ⟨l⟩)
  if 4 ≤ parts.length ∧ parts.getD (parts.length - 2) "" = "photos" then
    some (parts.getD (parts.length - 1) "")
  else none

/-- Model of `PhotoService::delete_photo_from_mongodb` (photo_service.rs
lines 193-205): parse the identifier, `delete_one` by `_id`; a storage-layer
failure is an error, and so is `deleted_count == 0` (blob already absent). -/
def delete_photo_from_mongodb (env : Env) (st : StoreState) (photo_id : String) :
    StoreState × Except SvcError Unit :=
  match oidParse photo_id with
  | none => (st, .error .invalidPhotoIdFormat)
  | some object_id =>
    if env.mongo_delete_ok then
      let remaining := st.mongo_photos.filter (fun p => p.1 != object_id)
      if st.mongo_photos.length = remaining.length then
        (st, .error .photoNotFoundInMongo)
      else ({ st with mongo_photos := remaining }, .ok ())
    else (st, .error .mongoDeleteFailed)

/-- Model of `PhotoService::delete_photo` (photo_service.rs lines 109-126): look up the
descriptor scoped by `(id, user_id)`, parse its locator, delete the blob,
then delete the descriptor row (by id only). -/
def delete_photo (env : Env) (st : StoreState) (user_id : String)
    (photo_id : Nat) : StoreState × Except SvcError Unit :=
  if env.pg_conn_ok then
    match st.pg_user_photos.find?
        (fun p => p.id == photo_id && p.user_id == user_id) with
    | none => (st, .error .photoNotFoundOrAccessDenied)
    | some db_photo =>
      match extract_mongo_id_from_url db_photo.photo_url with
      | none => (st, .error .invalidPhotoUrlFormat)
      | some mongo_id =>
        match delete_photo_from_mongodb env st mongo_id with
        | (st1, .error e) => (st1, .error e)
        | (st1, .ok _) =>
          if env.pg_delete_ok then
            ({ st1 with
                 pg_user_photos :=
                   st1.pg_user_photos.filter (fun p => p.id != photo_id) },
             .ok ())
          else (st1, .error .pgDeleteFailed)
  else (st, .error .pgConnFailed)

/-- The empty initial store state. -/
def st0 : StoreState :=
  { mongo_photos := [], next_oid := 0, pg_user_photos := [], next_pg_id := 0 }

/-- A stored blob document, used in concrete delete scenarios. -/
def photoRec5 : MongoPhoto :=
  { id := some 5, user_id := "u", photo_type := "profile",
    file_name := "u_profile.jpg", file_size := 1, content_type := "image/jpeg",
    photo_data := [9], is_verified := false, created_at := 0, updated_at := 0 }

/-- A descriptor row whose locator points at blob identifier 5. -/
def dbPhoto1 : DbUserPhoto :=
  { id := 1, user_id := "u", photo_type := "profile",
    photo_url := "/api/v1/photos/5", is_verified := false,
    created_at := 0, updated_at := 0 }

/-- Store state with the descriptor present but its blob ABSENT (removed
out-of-band). -/
def stBlobGone : StoreState :=
  { mongo_photos := [], next_oid := 6, pg_user_photos := [dbPhoto1],
    next_pg_id := 2 }

/-- Store state with the descriptor and its blob both present. -/
def stBlobThere : StoreState :=
  { mongo_photos := [(5, photoRec5)], next_oid := 6,
    pg_user_photos := [dbPhoto1], next_pg_id := 2 }

theorem filter_ext {α : Type} (p q : α → Bool) (h : ∀ x, p x = q x) (l : List α) :
    l.filter p = l.filter q := by
  have hpq : p = q := funext h
  rw [hpq]

theorem hexVal_hexDigit (v : Nat) (h : v < 16) : hexVal (hexDigit v) = some v := by
  interval_cases v <;> decide

theorem hexDigit_ne_slash (v : Nat) (h : v < 16) : hexDigit v ≠ '/' := by
  interval_cases v <;> decide

theorem parseHexCore_append (xs ys : List Char) :
    ∀ acc, parseHexCore acc (xs ++ ys) =
      (parseHexCore acc xs).bind (fun a => parseHexCore a ys) := by
  induction xs with
  | nil => intro acc; rfl
  | cons c cs ih =>
      intro acc
      rcases hv : hexVal c with _ | v
      · simp [parseHexCore, hv]
      · simp [parseHexCore, hv, ih]

theorem parseHexCore_toHexRevFuel :
    ∀ fuel n, n < fuel → ∀ acc,
      parseHexCore acc (toHexRevFuel fuel n).reverse =
        some (acc * 16 ^ (toHexRevFuel fuel n).length + n) := by
  intro fuel
  induction fuel with
  | zero => intro n h; omega
  | succ f ih =>
    intro n h acc
    simp only [toHexRevFuel]
    by_cases h16 : n < 16
    · rw [if_pos h16]
      simp [parseHexCore, hexVal_hexDigit n h16]
    · rw [if_neg h16]
      have hdlt : n / 16 < n := Nat.div_lt_self (by omega) (by omega)
      have hv : hexVal (hexDigit (n % 16)) = some (n % 16) :=
        hexVal_hexDigit _ (Nat.mod_lt _ (by omega))
      rw [List.reverse_cons, parseHexCore_append, ih (n / 16) (by omega) acc]
      simp only [Option.some_bind, parseHexCore, hv, List.length_cons]
      have hpow : (16 : Nat) ^ ((toHexRevFuel f (n / 16)).length + 1) =
          16 ^ (toHexRevFuel f (n / 16)).length * 16 := pow_succ 16 _
      rw [hpow, ← mul_assoc]
      generalize acc * 16 ^ (toHexRevFuel f (n / 16)).length = B
      have hdm := Nat.div_add_mod n 16
      simp only [Option.some.injEq]
      omega

theorem parseHexCore_toHexRev (n : Nat) :
    ∀ acc, parseHexCore acc (toHexRev n).reverse =
      some (acc * 16 ^ (toHexRev n).length + n) :=
  fun acc => parseHexCore_toHexRevFuel (n + 1) n (Nat.lt_succ_self n) acc

theorem toHexRev_ne_nil (n : Nat) : toHexRev n ≠ [] := by
  unfold toHexRev
  simp only [toHexRevFuel]
  split <;> simp

theorem toHexRevFuel_mem_ne_slash :
    ∀ fuel n, n < fuel → ∀ c ∈ toHexRevFuel fuel n, c ≠ '/' := by
  intro fuel
  induction fuel with
  | zero => intro n h; omega
  | succ f ih =>
    intro n h c hc
    simp only [toHexRevFuel] at hc
    by_cases h16 : n < 16
    · rw [if_pos h16] at hc
      simp only [List.mem_singleton] at hc
      subst hc
      exact hexDigit_ne_slash n h16
    · rw [if_neg h16] at hc
      rcases List.mem_cons.mp hc with hc | hc
      · subst hc
        exact hexDigit_ne_slash _ (Nat.mod_lt _ (by omega))
      · have hdlt : n / 16 < n := Nat.div_lt_self (by omega) (by omega)
        exact ih (n / 16) (by omega) c hc

theorem toHexRev_mem_ne_slash (n : Nat) : ∀ c ∈ toHexRev n, c ≠ '/' :=
  toHexRevFuel_mem_ne_slash (n + 1) n (Nat.lt_succ_self n)

theorem oidParse_oidToHex (n : Nat) : oidParse (oidToHex n) = some n := by
  unfold oidParse oidToHex
  have hne : (toHexRev n).reverse ≠ ([] : List Char) := by
    simp [toHexRev_ne_nil]
  rw [if_neg hne, parseHexCore_toHexRev n 0]
  simp

theorem splitChar_ne_nil (sep : Char) (l : List Char) : splitChar sep l ≠ [] := by
  induction l with
  | nil => simp [splitChar]
  | cons c cs ih =>
      rw [splitChar]
      split
      · simp
      · rcases h : splitChar sep cs with _ | ⟨g, gs⟩
        · exact absurd h ih
        · simp

theorem splitChar_no_sep (sep : Char) (l : List Char) (h : ∀ c ∈ l, c ≠ sep) :
    splitChar sep l = [l] := by
  induction l with
  | nil => rfl
  | cons c cs ih =>
      rw [splitChar, if_neg (h c (by simp))]
      rw [ih (fun x hx => h x (by simp [hx]))]

theorem splitChar_append_no_sep (sep : Char) (l r : List Char)
    (h : ∀ c ∈ l, c ≠ sep) :
    splitChar sep (l ++ sep :: r) = l :: splitChar sep r := by
  induction l with
  | nil =>
      show splitChar sep (sep :: r) = [] :: splitChar sep r
      rw [splitChar, if_pos rfl]
  | cons c cs ih =>
      show splitChar sep (c :: (cs ++ sep :: r)) = _
      rw [splitChar, if_neg (h c (by simp))]
      rw [ih (fun x hx => h x (by simp [hx]))]

theorem extract_of_locator (s : String) (hs : ∀ c ∈ s.data, c ≠ '/') :
    extract_mongo_id_from_url ("/api/v1/photos/" ++ s) = some s := by
  obtain ⟨l⟩ := s
  have hsplit : splitChar '/' (("/api/v1/photos/" : String) ++ (⟨l⟩ : String)).data
      = [[], ['a', 'p', 'i'], ['v', '1'], ['p', 'h', 'o', 't', 'o', 's'], l] := by
    show splitChar '/'
        ('/' :: (['a', 'p', 'i'] ++ '/' :: (['v', '1'] ++ '/' ::
          (['p', 'h', 'o', 't', 'o', 's'] ++ '/' :: l)))) = _
    rw [splitChar, if_pos rfl]
    rw [splitChar_append_no_sep _ _ _ (by decide)]
    rw [splitChar_append_no_sep _ _ _ (by decide)]
    rw [splitChar_append_no_sep _ _ _ (by decide)]
    rw [splitChar_no_sep _ _ hs]
  unfold extract_mongo_id_from_url
  rw [hsplit]
  simp [List.getD]

/-- C9: `clear_cache` empties all entries and resets `allocated_bytes` to
zero, while `peak_allocated_bytes` keeps its pre-clear value as a historical
high-water mark. -/
theorem clear_cache_resets_alloc_keeps_peak (m : MemoryManager) :
    m.clear_cache.cache = [] ∧
    m.clear_cache.stats.allocated_bytes = 0 ∧
    m.clear_cache.stats.peak_allocated_bytes = m.stats.peak_allocated_bytes :=
  ⟨rfl, rfl, rfl⟩

/-- C8: calling through the process-wide accessor while no manager is
configured yields the explicit unavailable value `none`; a configured manager
always yields `some` of its stats snapshot, so `none` is distinct from every
result a configured instance can produce. -/
theorem get_memory_stats_unconfigured_none :
    get_memory_stats none = none ∧
    get_memory_manager (none : Option MemoryManager) = none ∧
    ∀ m : MemoryManager, get_memory_stats (some m) = some m.get_stats :=
  ⟨rfl, rfl, fun _ => rfl⟩

/-- C3 fails on the code: after `put("k", [0, 0])` then `put("k", [0])` on a
fresh manager, `allocated_bytes` is 3 (size(A)+size(B)) although the sole
current entry's payload size is 1 — `cache_data` adds the new payload size
without subtracting the replaced payload's size. -/
theorem cache_overwrite_double_counts :
    (execOps MemoryManager.new [.put "k" [0, 0] 0, .put "k" [0] 1]).stats.allocated_bytes
        = 3 ∧
    entriesBytes (execOps MemoryManager.new [.put "k" [0, 0] 0, .put "k" [0] 1]) = 1 ∧
    (execOps MemoryManager.new [.put "k" [0, 0] 0, .put "k" [0] 1]).cache
        = [("k", [0], 1)] := by
  refine ⟨?_, ?_, ?_⟩ <;> rfl

/-- C7: a reclamation pass removes exactly the entries whose age exceeds one
hour, decrements `allocated_bytes` by the sum of the removed payload sizes,
increments `gc_runs` by one and sets `last_gc_time` to the pass time (these
stat updates are unconditional, so they happen even when the pass removes
nothing), and `force_gc` is exactly one such pass. -/
theorem run_gc_internal_spec (m : MemoryManager) (now : Nat)
    (hacct : ((m.cache.filter (gcExpired now)).map (fun e => e.2.1.length)).sum ≤
      m.stats.allocated_bytes) :
    (m.run_gc_internal now).cache = m.cache.filter (fun e => !gcExpired now e) ∧
    (m.run_gc_internal now).stats.allocated_bytes +
        ((m.cache.filter (gcExpired now)).map (fun e => e.2.1.length)).sum =
      m.stats.allocated_bytes ∧
    (m.run_gc_internal now).stats.gc_runs = m.stats.gc_runs + 1 ∧
    (m.run_gc_internal now).stats.last_gc_time = some now ∧
    (m.run_gc_internal now).stats.peak_allocated_bytes = m.stats.peak_allocated_bytes ∧
    m.force_gc now = m.run_gc_internal now := by
  have hexp : ∀ e : CacheEntry, decide (e.2.2 < now - 3600) = gcExpired now e := by
    intro e
    unfold gcExpired
    exact decide_eq_decide.mpr (by omega)
  have hkept : ∀ e : CacheEntry, (!decide (e.2.2 < now - 3600)) = !gcExpired now e := by
    intro e
    rw [hexp]
  refine ⟨?_, ?_, rfl, rfl, rfl, rfl⟩
  · exact filter_ext _ _ hkept m.cache
  · show m.stats.allocated_bytes -
        ((m.cache.filter (fun e => decide (e.2.2 < now - 3600))).map
          (fun e => e.2.1.length)).sum + _ = _
    rw [filter_ext _ _ hexp m.cache]
    omega

/-- Witness for `run_gc_internal_spec`: a one-entry cache inserted at instant
0 and reclaimed at instant 4000 (age 4000 s > 3600 s). -/
theorem run_gc_internal_spec_witness :
    ((execOps MemoryManager.new [.put "k" [5] 0]).run_gc_internal 4000).cache =
        (execOps MemoryManager.new [.put "k" [5] 0]).cache.filter
          (fun e => !gcExpired 4000 e) ∧
    ((execOps MemoryManager.new [.put "k" [5] 0]).run_gc_internal 4000).stats.allocated_bytes +
        (((execOps MemoryManager.new [.put "k" [5] 0]).cache.filter (gcExpired 4000)).map
          (fun e => e.2.1.length)).sum =
      (execOps MemoryManager.new [.put "k" [5] 0]).stats.allocated_bytes ∧
    ((execOps MemoryManager.new [.put "k" [5] 0]).run_gc_internal 4000).stats.gc_runs =
      (execOps MemoryManager.new [.put "k" [5] 0]).stats.gc_runs + 1 ∧
    ((execOps MemoryManager.new [.put "k" [5] 0]).run_gc_internal 4000).stats.last_gc_time =
      some 4000 ∧
    ((execOps MemoryManager.new [.put "k" [5] 0]).run_gc_internal 4000).stats.peak_allocated_bytes =
      (execOps MemoryManager.new [.put "k" [5] 0]).stats.peak_allocated_bytes ∧
    (execOps MemoryManager.new [.put "k" [5] 0]).force_gc 4000 =
      (execOps MemoryManager.new [.put "k" [5] 0]).run_gc_internal 4000 :=
  run_gc_internal_spec (execOps MemoryManager.new [.put "k" [5] 0]) 4000 (by decide)

theorem execOp_peak_mono (m : MemoryManager) (op : CacheOp) :
    m.stats.peak_allocated_bytes ≤ (execOp m op).stats.peak_allocated_bytes := by
  cases op with
  | put key data now =>
      simp only [execOp, MemoryManager.cache_data]
      split <;> omega
  | get key => exact Nat.le_refl _
  | remove key =>
      rcases hl : cacheLookup m.cache key with _ | ⟨data, t⟩ <;>
        simp [execOp, MemoryManager.remove_cached_data, hl]
  | clear => exact Nat.le_refl _
  | gc now => exact Nat.le_refl _

theorem execOp_alloc_le_peak (m : MemoryManager) (op : CacheOp)
    (h : m.stats.allocated_bytes ≤ m.stats.peak_allocated_bytes) :
    (execOp m op).stats.allocated_bytes ≤ (execOp m op).stats.peak_allocated_bytes := by
  cases op with
  | put key data now =>
      simp only [execOp, MemoryManager.cache_data]
      split <;> omega
  | get key => exact h
  | remove key =>
      rcases hl : cacheLookup m.cache key with _ | ⟨data, t⟩ <;>
        simp [execOp, MemoryManager.remove_cached_data, hl] <;> omega
  | clear => exact Nat.zero_le _
  | gc now =>
      simp only [execOp, MemoryManager.run_gc_internal]
      omega

theorem execOps_peak_mono (m : MemoryManager) (ops : List CacheOp) :
    m.stats.peak_allocated_bytes ≤ (execOps m ops).stats.peak_allocated_bytes := by
  induction ops generalizing m with
  | nil => exact Nat.le_refl _
  | cons op rest ih =>
      exact Nat.le_trans (execOp_peak_mono m op) (ih (execOp m op))

theorem execOps_alloc_le_peak (m : MemoryManager) (ops : List CacheOp)
    (h : m.stats.allocated_bytes ≤ m.stats.peak_allocated_bytes) :
    (execOps m ops).stats.allocated_bytes ≤ (execOps m ops).stats.peak_allocated_bytes := by
  induction ops generalizing m with
  | nil => exact h
  | cons op rest ih => exact ih (execOp m op) (execOp_alloc_le_peak m op h)

/-- C10: starting from a fresh manager, `peak_allocated_bytes` never
decreases across any sequence of cache operations, and after every sequence
it dominates `allocated_bytes`. -/
theorem peak_high_water_mark :
    (∀ ops more : List CacheOp,
        (execOps MemoryManager.new ops).stats.peak_allocated_bytes ≤
          (execOps MemoryManager.new (ops ++ more)).stats.peak_allocated_bytes) ∧
    ∀ ops : List CacheOp,
        (execOps MemoryManager.new ops).stats.allocated_bytes ≤
          (execOps MemoryManager.new ops).stats.peak_allocated_bytes := by
  constructor
  · intro ops more
    have hsplit : execOps MemoryManager.new (ops ++ more) =
        execOps (execOps MemoryManager.new ops) more := by
      simp [execOps, List.foldl_append]
    rw [hsplit]
    exact execOps_peak_mono _ more
  · intro ops
    exact execOps_alloc_le_peak _ ops (Nat.le_refl 0)

/-- Shape of a fully successful upload: the blob is stored under the fresh
identifier, the descriptor row references the locator built from it, and the
assembled `UserPhoto` is returned. -/
theorem upload_photo_ok_eq (env : Env) (st : StoreState) (uid ptype : String)
    (data : List Nat) (ext : String) (now : Nat) (ct : String)
    (htype : ptype = "profile" ∨ ptype = "emirates_id" ∨ ptype = "verification")
    (hsize : data.length ≤ 10 * 1024 * 1024)
    (hext : contentTypeFor (strToLower ext) = some ct)
    (hmi : env.mongo_insert_ok = true)
    (hpc : env.pg_conn_ok = true)
    (hpi : env.pg_insert_ok = true) :
    upload_photo env st uid ptype data ext now =
      ({ mongo_photos :=
           (st.next_oid,
             { id := some st.next_oid, user_id := uid, photo_type := ptype,
               file_name := uploadFileName uid ptype ext,
               file_size := (data.length : Int), content_type := ct,
               photo_data := data, is_verified := false,
               created_at := now, updated_at := now }) :: st.mongo_photos
         next_oid := st.next_oid + 1
         pg_user_photos :=
           { id := st.next_pg_id, user_id := uid, photo_type := ptype,
             photo_url := "/api/v1/photos/" ++ oidToHex st.next_oid,
             is_verified := false, created_at := now, updated_at := now } ::
             st.pg_user_photos
         next_pg_id := st.next_pg_id + 1 },
       .ok { id := st.next_pg_id, user_id := uid, photo_type := ptype,
             photo_url := "/api/v1/photos/" ++ oidToHex st.next_oid,
             is_verified := false, created_at := now, updated_at := now }) := by
  unfold upload_photo
  rw [if_neg (not_not_intro htype), if_neg (by omega), hext]
  unfold store_photo_in_mongodb store_photo_metadata_in_postgres
  rw [hmi, hpc, hpi]
  simp [MongoPhoto.new, dbToUserPhoto]

/-- C1 fails on the code: with the blob write succeeding and the descriptor
insert failing, `upload_photo` returns only the insertion failure while the
just-written blob stays in the blob store — no compensating delete happens
(the delete flag is `true`, so a compensation attempt would have succeeded),
and the compensation outcome is not part of the error. -/
theorem upload_no_compensation_cex :
    upload_photo { envOk with pg_insert_ok := false } st0 "u" "profile" [7] "png" 0 =
      ({ mongo_photos :=
           [(0, { id := some 0, user_id := "u", photo_type := "profile",
                  file_name := "u_profile.png", file_size := 1,
                  content_type := "image/png", photo_data := [7],
                  is_verified := false, created_at := 0, updated_at := 0 })]
         next_oid := 1, pg_user_photos := [], next_pg_id := 0 },
       .error .pgInsertFailed) := by
  rfl

/-- C1 amended: when the blob write succeeds and the descriptor insertion
fails, `upload_photo` propagates the insertion failure alone; the blob
remains stored (orphaned) and the metadata store is untouched. -/
theorem upload_pg_insert_failure_orphans_blob (env : Env) (st : StoreState)
    (uid ptype : String) (data : List Nat) (ext : String) (now : Nat)
    (ct : String)
    (htype : ptype = "profile" ∨ ptype = "emirates_id" ∨ ptype = "verification")
    (hsize : data.length ≤ 10 * 1024 * 1024)
    (hext : contentTypeFor (strToLower ext) = some ct)
    (hmi : env.mongo_insert_ok = true)
    (hpc : env.pg_conn_ok = true)
    (hpi : env.pg_insert_ok = false) :
    upload_photo env st uid ptype data ext now =
      ({ st with
           mongo_photos :=
             (st.next_oid,
               { id := some st.next_oid, user_id := uid, photo_type := ptype,
                 file_name := uploadFileName uid ptype ext,
                 file_size := (data.length : Int), content_type := ct,
                 photo_data := data, is_verified := false,
                 created_at := now, updated_at := now }) :: st.mongo_photos
           next_oid := st.next_oid + 1 },
       .error .pgInsertFailed) := by
  unfold upload_photo
  rw [if_neg (not_not_intro htype), if_neg (by omega), hext]
  unfold store_photo_in_mongodb store_photo_metadata_in_postgres
  rw [hmi, hpc, hpi]
  simp [MongoPhoto.new]

/-- Witness for `upload_pg_insert_failure_orphans_blob` at a concrete input. -/
theorem upload_pg_insert_failure_orphans_blob_witness :
    upload_photo { envOk with pg_insert_ok := false } st0 "u" "emirates_id" [3, 4] "gif" 9 =
      ({ st0 with
           mongo_photos :=
             (st0.next_oid,
               { id := some st0.next_oid, user_id := "u",
                 photo_type := "emirates_id",
                 file_name := uploadFileName "u" "emirates_id" "gif",
                 file_size := (([3, 4] : List Nat).length : Int),
                 content_type := "image/gif",
                 photo_data := [3, 4], is_verified := false,
                 created_at := 9, updated_at := 9 }) :: st0.mongo_photos
           next_oid := st0.next_oid + 1 },
       .error .pgInsertFailed) :=
  upload_pg_insert_failure_orphans_blob { envOk with pg_insert_ok := false } st0
    "u" "emirates_id" [3, 4] "gif" 9 "image/gif"
    (Or.inr (Or.inl rfl)) (by decide) rfl rfl rfl rfl

/-- C4 fails on the code: the category whitelist is
`{profile, emirates_id, verification}`, not `{profile, id_document,
verification}` — `"id_document"` is rejected with a validation error while
`"emirates_id"` is accepted. -/
theorem upload_id_document_rejected_cex :
    upload_photo envOk st0 "u" "id_document" [0] "jpg" 0 =
      (st0, .error (.invalidPhotoType "id_document")) ∧
    (upload_photo envOk st0 "u" "emirates_id" [0] "jpg" 0).2 =
      .ok { id := 0, user_id := "u", photo_type := "emirates_id",
            photo_url := "/api/v1/photos/0", is_verified := false,
            created_at := 0, updated_at := 0 } := by
  constructor <;> rfl

/-- C4 amended: with a valid size and extension and working stores,
`upload_photo` accepts the category iff it is one of
`{profile, emirates_id, verification}`; any other category is rejected with
the category validation error before any store write (state unchanged). -/
theorem upload_category_whitelist (env : Env) (st : StoreState)
    (uid ptype : String) (data : List Nat) (ext : String) (now : Nat)
    (ct : String)
    (hsize : data.length ≤ 10 * 1024 * 1024)
    (hext : contentTypeFor (strToLower ext) = some ct)
    (hmi : env.mongo_insert_ok = true)
    (hpc : env.pg_conn_ok = true)
    (hpi : env.pg_insert_ok = true) :
    ((∃ up, (upload_photo env st uid ptype data ext now).2 = .ok up) ↔
      (ptype = "profile" ∨ ptype = "emirates_id" ∨ ptype = "verification")) ∧
    (¬ (ptype = "profile" ∨ ptype = "emirates_id" ∨ ptype = "verification") →
      upload_photo env st uid ptype data ext now =
        (st, .error (.invalidPhotoType ptype))) := by
  have hrej : ¬ (ptype = "profile" ∨ ptype = "emirates_id" ∨
      ptype = "verification") →
      upload_photo env st uid ptype data ext now =
        (st, .error (.invalidPhotoType ptype)) := by
    intro hm
    unfold upload_photo
    rw [if_pos hm]
  refine ⟨⟨?_, ?_⟩, hrej⟩
  · rintro ⟨up, hup⟩
    by_contra hm
    rw [hrej hm] at hup
    exact Except.noConfusion hup
  · intro htype
    rw [upload_photo_ok_eq env st uid ptype data ext now ct htype hsize hext
      hmi hpc hpi]
    exact ⟨_, rfl⟩

/-- Witness for `upload_category_whitelist` at a concrete input. -/
theorem upload_category_whitelist_witness :
    ((∃ up, (upload_photo envOk st0 "u" "verification" [1] "webp" 2).2 = .ok up) ↔
      (("verification" : String) = "profile" ∨ ("verification" : String) = "emirates_id" ∨
        ("verification" : String) = "verification")) ∧
    (¬ (("verification" : String) = "profile" ∨ ("verification" : String) = "emirates_id" ∨
        ("verification" : String) = "verification") →
      upload_photo envOk st0 "u" "verification" [1] "webp" 2 =
        (st0, .error (.invalidPhotoType "verification"))) :=
  upload_category_whitelist envOk st0 "u" "verification" [1] "webp" 2
    "image/webp" (by decide) rfl rfl rfl rfl

/-- C6: an upload whose category, size or extension fails validation returns
a validation error and leaves both stores untouched. -/
theorem upload_invalid_input_no_writes (env : Env) (st : StoreState)
    (uid ptype : String) (data : List Nat) (ext : String) (now : Nat)
    (h : ¬ (ptype = "profile" ∨ ptype = "emirates_id" ∨ ptype = "verification") ∨
         data.length > 10 * 1024 * 1024 ∨
         contentTypeFor (strToLower ext) = none) :
    (upload_photo env st uid ptype data ext now).1 = st ∧
    ∃ e, (upload_photo env st uid ptype data ext now).2 = .error e ∧
         e.isValidation = true := by
  unfold upload_photo
  by_cases h1 : ptype = "profile" ∨ ptype = "emirates_id" ∨ ptype = "verification"
  case neg =>
    rw [if_pos h1]
    exact ⟨rfl, .invalidPhotoType ptype, rfl, rfl⟩
  case pos =>
    rw [if_neg (not_not_intro h1)]
    by_cases h2 : data.length > 10 * 1024 * 1024
    case pos =>
      rw [if_pos h2]
      exact ⟨rfl, .fileTooLarge, rfl, rfl⟩
    case neg =>
      rw [if_neg h2]
      have hext : contentTypeFor (strToLower ext) = none := by
        rcases h with h | h | h
        · exact absurd h1 h
        · exact absurd h h2
        · exact h
      rw [hext]
      exact ⟨rfl, .unsupportedFormat ext, rfl, rfl⟩

/-- Witness for `upload_invalid_input_no_writes`: category "selfie". -/
theorem upload_invalid_input_no_writes_witness :
    (upload_photo envOk st0 "u" "selfie" [0] "jpg" 0).1 = st0 ∧
    ∃ e, (upload_photo envOk st0 "u" "selfie" [0] "jpg" 0).2 = .error e ∧
         e.isValidation = true :=
  upload_invalid_input_no_writes envOk st0 "u" "selfie" [0] "jpg" 0
    (Or.inl (by decide))

/-- C5: a successful upload followed by a fetch of the identifier parsed out
of the returned descriptor's locator yields the uploaded bytes unchanged. -/
theorem upload_fetch_roundtrip (env : Env) (st : StoreState)
    (uid ptype : String) (data : List Nat) (ext : String) (now : Nat)
    (ct : String)
    (htype : ptype = "profile" ∨ ptype = "emirates_id" ∨ ptype = "verification")
    (hsize : data.length ≤ 10 * 1024 * 1024)
    (hext : contentTypeFor (strToLower ext) = some ct)
    (hmi : env.mongo_insert_ok = true)
    (hpc : env.pg_conn_ok = true)
    (hpi : env.pg_insert_ok = true)
    (hmf : env.mongo_find_ok = true) :
    ∃ up mid photo,
      (upload_photo env st uid ptype data ext now).2 = .ok up ∧
      extract_mongo_id_from_url up.photo_url = some mid ∧
      get_photo_data env (upload_photo env st uid ptype data ext now).1 mid =
        .ok photo ∧
      photo.photo_data = data := by
  have heq := upload_photo_ok_eq env st uid ptype data ext now ct htype hsize
    hext hmi hpc hpi
  rw [heq]
  have hslash : ∀ c ∈ (oidToHex st.next_oid).data, c ≠ '/' := by
    intro c hc
    have hc2 : c ∈ toHexRev st.next_oid := by
      have : (oidToHex st.next_oid).data = (toHexRev st.next_oid).reverse := rfl
      rw [this, List.mem_reverse] at hc
      exact hc
    exact toHexRev_mem_ne_slash st.next_oid c hc2
  refine ⟨_, oidToHex st.next_oid,
    { id := some st.next_oid, user_id := uid, photo_type := ptype,
      file_name := uploadFileName uid ptype ext,
      file_size := (data.length : Int), content_type := ct,
      photo_data := data, is_verified := false,
      created_at := now, updated_at := now },
    rfl, extract_of_locator _ hslash, ?_, rfl⟩
  unfold get_photo_data
  rw [oidParse_oidToHex, hmf]
  simp [List.find?]

theorem length_filter_lt_of_mem {α : Type} (p : α → Bool) (l : List α) (x : α)
    (hx : x ∈ l) (hpx : p x = false) : (l.filter p).length < l.length := by
  induction l with
  | nil => cases hx
  | cons a as ih =>
      rcases List.mem_cons.mp hx with rfl | hx2
      · have hle := List.length_filter_le p as
        simp [List.filter_cons, hpx]
        omega
      · by_cases hpa : p a = true
        · have := ih hx2
          simp [List.filter_cons, hpa]
          omega
        · have := ih hx2
          simp only [Bool.not_eq_true] at hpa
          have hle := List.length_filter_le p as
          simp [List.filter_cons, hpa]
          omega

/-- C2 fails on the code: with the descriptor present but the blob already
absent, `delete_photo` returns the "Photo not found in MongoDB" error
(`deleted_count == 0` is treated as an error, not as success) and the
descriptor row is NOT removed. -/
theorem delete_blob_absent_fails_cex :
    delete_photo envOk stBlobGone "u" 1 =
      (stBlobGone, .error .photoNotFoundInMongo) := by
  rfl

/-- C2 amended: when the descriptor lookup succeeds and the locator parses,
a delete finding the blob already absent FAILS with the blob-not-found error
and leaves the state (including the descriptor) unchanged; when the blob is
present the delete succeeds, and immediately repeating it yields the
"Photo not found or access denied" error. -/
theorem delete_photo_absent_vs_present (env : Env) (st : StoreState)
    (uid : String) (pid : Nat) (db : DbUserPhoto) (mid : String) (oid : Nat)
    (hpc : env.pg_conn_ok = true)
    (hfind : st.pg_user_photos.find?
      (fun p => p.id == pid && p.user_id == uid) = some db)
    (hurl : extract_mongo_id_from_url db.photo_url = some mid)
    (hparse : oidParse mid = some oid)
    (hdel : env.mongo_delete_ok = true)
    (hpgdel : env.pg_delete_ok = true) :
    ((∀ p ∈ st.mongo_photos, p.1 ≠ oid) →
        delete_photo env st uid pid = (st, .error .photoNotFoundInMongo)) ∧
    ((∃ p ∈ st.mongo_photos, p.1 = oid) →
        (delete_photo env st uid pid).2 = .ok () ∧
        delete_photo env (delete_photo env st uid pid).1 uid pid =
          ((delete_photo env st uid pid).1,
            .error .photoNotFoundOrAccessDenied)) := by
  constructor
  · intro habsent
    have hfilter : st.mongo_photos.filter (fun p => p.1 != oid) = st.mongo_photos :=
      List.filter_eq_self.mpr (fun p hp => by simpa using habsent p hp)
    simp only [delete_photo, delete_photo_from_mongodb, hpc, hfind, hurl,
      hparse, hdel, hfilter]
    simp
  · rintro ⟨p, hp, hpk⟩
    have hlt : (st.mongo_photos.filter (fun q => q.1 != oid)).length <
        st.mongo_photos.length :=
      length_filter_lt_of_mem _ _ p hp (by simp [hpk])
    have h1 : delete_photo env st uid pid =
        ({ st with
             mongo_photos := st.mongo_photos.filter (fun q => q.1 != oid)
             pg_user_photos := st.pg_user_photos.filter (fun q => q.id != pid) },
         .ok ()) := by
      have hcond : ¬ (st.mongo_photos.length =
          (st.mongo_photos.filter (fun q => q.1 != oid)).length) := by omega
      simp only [delete_photo, delete_photo_from_mongodb, hpc, hfind, hurl,
        hparse, hdel, hpgdel]
      rw [if_neg hcond]
      simp
    have hnone : (st.pg_user_photos.filter (fun q => q.id != pid)).find?
        (fun q => q.id == pid && q.user_id == uid) = none := by
      apply List.find?_eq_none.mpr
      intro x hx
      have hne : x.id ≠ pid := by
        have := (List.mem_filter.mp hx).2
        simpa using this
      simp [hne]
    rw [h1]
    refine ⟨rfl, ?_⟩
    simp only [delete_photo, hpc, hnone]
    simp

/-- Witness for `delete_photo_absent_vs_present` at the concrete
blob-present state. -/
theorem delete_photo_absent_vs_present_witness :
    ((∀ p ∈ stBlobThere.mongo_photos, p.1 ≠ 5) →
        delete_photo envOk stBlobThere "u" 1 =
          (stBlobThere, .error .photoNotFoundInMongo)) ∧
    ((∃ p ∈ stBlobThere.mongo_photos, p.1 = 5) →
        (delete_photo envOk stBlobThere "u" 1).2 = .ok () ∧
        delete_photo envOk (delete_photo envOk stBlobThere "u" 1).1 "u" 1 =
          ((delete_photo envOk stBlobThere "u" 1).1,
            .error .photoNotFoundOrAccessDenied)) :=
  delete_photo_absent_vs_present envOk stBlobThere "u" 1 dbPhoto1 "5" 5
    rfl rfl rfl rfl rfl rfl

/-- Witness for `upload_fetch_roundtrip` at a concrete input. -/
theorem upload_fetch_roundtrip_witness :
    ∃ up mid photo,
      (upload_photo envOk st0 "u" "profile" [1, 2, 3] "jpg" 0).2 = .ok up ∧
      extract_mongo_id_from_url up.photo_url = some mid ∧
      get_photo_data envOk (upload_photo envOk st0 "u" "profile" [1, 2, 3] "jpg" 0).1 mid =
        .ok photo ∧
      photo.photo_data = [1, 2, 3] :=
  upload_fetch_roundtrip envOk st0 "u" "profile" [1, 2, 3] "jpg" 0
    "image/jpeg" (Or.inl rfl) (by decide) rfl rfl rfl rfl rfl

end Stander
